import Mathlib

/-!
Shallow embedding of the Drishyamitra photo-management service layer
(`service.py`, `routes.py`, `config.py`).

Modelling conventions:
* The Supabase tables `persons`, `photos`, `photo_persons`, `delivery_history`
  are lists of records inside a `DB` structure.
* The disk is a list of paths `(user_id, folder_name, filename)`; the code
  creates a file at most once per path (`_copy_to_folder` checks existence
  first), which the model renders as insert-if-absent.
* Face embeddings are vectors of rationals.  The float cosine similarity
  computed by numpy is abstracted as a parameter `sim : List ℚ → List ℚ → ℚ`;
  every statement about the resolution logic is proved for an arbitrary
  similarity function, hence in particular for cosine similarity.
* `uuid.uuid4()` draws are modelled by a generator `gen : Nat → String`
  applied to a fresh counter stored in the state.
* External capabilities are oracles: the face embedder result is the list of
  embeddings passed to the pipeline, the scene labeler is an
  `Option String` (none = the Groq call raised), storage failure of a write
  is an oracle `fail` on paths (`shutil.copy2` / `file.save` raising OSError).
  A raised storage error is not caught anywhere in `service.py` or
  `routes.py`, so it propagates as `Except.error` carrying the state at the
  moment of the raise.
-/

deriving instance DecidableEq for Except

/-- One disk path: (user_id, folder_name, filename).  The temporary upload
file saved by the route directly under the user root is modelled with an
empty folder component. -/
abbrev DPath := String × String × String

/-- `Config.ALLOWED_EXTENSIONS` from `config.py`. -/
def ALLOWED_EXTENSIONS : List String := ["png", "jpg", "jpeg", "webp", "gif"]

/-- `Config.DEEPFACE_DISTANCE_THRESHOLD = 0.40` from `config.py`. -/
def DEEPFACE_DISTANCE_THRESHOLD : ℚ := mkRat 2 5

/-- The match threshold `1.0 - Config.DEEPFACE_DISTANCE_THRESHOLD` computed
by `find_matching_person`, precomputed to the rational 3/5 = 0.60 (the
lemma `MATCH_THRESHOLD_eq` proves it equal to the expression in the code). -/
def MATCH_THRESHOLD : ℚ := mkRat 3 5

/-- Row of the `persons` table.  The code stores a face embedding as a dict
with a single list under the key "vector" and a scene/manual group embedding
as SQL NULL; `find_matching_person` reads both shapes back to a plain list,
so the model uses `Option (List ℚ)`. -/
structure Person where
  id : String
  userId : String
  name : String
  folderName : String
  embedding : Option (List ℚ)
  deriving DecidableEq

/-- Row of the `photos` table (`filepath` always equals `filename` in the
code, so it is not modelled separately). -/
structure Photo where
  id : String
  userId : String
  filename : String
  deriving DecidableEq

/-- Row of the `photo_persons` membership table. -/
structure Link where
  photoId : String
  personId : String
  deriving DecidableEq

/-- Row of the `delivery_history` table. -/
structure Delivery where
  userId : String
  personId : String
  recipient : String
  photoCount : Nat
  status : String
  message : String
  deriving DecidableEq

/-- The relational store. -/
structure DB where
  persons : List Person
  photos : List Photo
  links : List Link
  deliveries : List Delivery
  deriving DecidableEq

/-- Whole mutable state: database, disk, and the fresh-uuid counter. -/
structure State where
  db : DB
  disk : List DPath
  fresh : Nat
  deriving DecidableEq

/-! ## String helpers (`allowed_file`, slug normalization, listing) -/

/-- Characters after the last dot — Python `filename.rsplit(".", 1)[1]`. -/
def afterLastDot (l : List Char) : List Char :=
  (l.reverse.takeWhile (fun c => !(c = '.'))).reverse

/-- `allowed_file` from `service.py`: the part after the last dot,
lowercased, must be an allowed extension. -/
def allowed_file (filename : String) : Bool :=
  filename.data.contains '.' &&
    ALLOWED_EXTENSIONS.contains (String.mk ((afterLastDot filename.data).map Char.toLower))

/-- ASCII model of the Python regex class `\w` (word character). -/
def isWordChar (c : Char) : Bool := c.isAlphanum || c = '_'

/-- Drop leading and trailing underscores — Python `str.strip("_")`. -/
def stripUnderscores (l : List Char) : List Char :=
  ((l.dropWhile (· = '_')).reverse.dropWhile (· = '_')).reverse

/-- Drop leading and trailing whitespace — Python `str.strip()`. -/
def trimChars (l : List Char) : List Char :=
  ((l.dropWhile Char.isWhitespace).reverse.dropWhile Char.isWhitespace).reverse

/-- The slug normalization inside `groq_describe_for_folder`:
`re.sub(r"[^\w]", "_", raw.strip().lower())[:40].strip("_") or "uncategorised"`.
Each non-word character is replaced by one underscore (runs are NOT
collapsed), then the first 40 characters are kept, outer underscores are
stripped, and the empty result falls back to "uncategorised". -/
def groq_slug (raw : String) : String :=
  let lowered := (trimChars raw.data).map Char.toLower
  let subbed := lowered.map (fun c => if isWordChar c then c else '_')
  let s := stripUnderscores (subbed.take 40)
  if s.isEmpty then "uncategorised" else String.mk s

/-- `groq_describe_for_folder`: the labeler output is `some raw`, or `none`
when the Groq call raised (the except-branch returns "uncategorised"). -/
def groq_describe_for_folder (label : Option String) : String :=
  match label with
  | none => "uncategorised"
  | some raw => groq_slug raw

/-- Helper for the spec-side normalization: walk the characters keeping a
flag telling whether the previous output character was already a separator
produced from a non-word run. -/
def collapseAux : List Char → Bool → List Char
  | [], _ => []
  | c :: rest, prevSep =>
    if isWordChar c then c :: collapseAux rest false
    else if prevSep then collapseAux rest true
    else '_' :: collapseAux rest true

/-- Collapse each maximal run of non-word characters to one underscore. -/
def collapseNonWord (l : List Char) : List Char := collapseAux l false

/-- Model of the claim wording (spec side, for comparison with `groq_slug`):
lowercase, collapse each maximal run of non-word characters to a single
separator, truncate to 40 characters, strip outer separators, fall back to
"uncategorised" when empty. -/
def spec_slug (raw : String) : String :=
  let lowered := (trimChars raw.data).map Char.toLower
  let s := stripUnderscores ((collapseNonWord lowered).take 40)
  if s.isEmpty then "uncategorised" else String.mk s

/-- Python `str.title()` on ASCII: a letter is uppercased when the previous
character is not a letter, lowercased otherwise (used for scene names). -/
def titleChars : List Char → Bool → List Char
  | [], _ => []
  | c :: rest, prevAlpha =>
    if c.isAlpha then
      (if prevAlpha then c.toLower else c.toUpper) :: titleChars rest true
    else
      c :: titleChars rest false

/-- `slug.replace("_", " ").title()` from `_find_or_create_scene_person`. -/
def sceneDisplayName (slug : String) : String :=
  String.mk (titleChars (slug.data.map (fun c => if c = '_' then ' ' else c)) false)

/-- `f.lower().endswith(IMAGE_EXTS)` — the extension tuple has no dots. -/
def hasImageExt (f : String) : Bool :=
  ALLOWED_EXTENSIONS.any (fun e => e.data.isSuffixOf (f.data.map Char.toLower))

/-- Lexicographic comparison by code point (Python string order). -/
def charListLe : List Char → List Char → Bool
  | [], _ => true
  | _ :: _, [] => false
  | a :: as, b :: bs => if a = b then charListLe as bs else decide (a < b)

/-- Insertion into a sorted list of strings. -/
def insertSorted (x : String) : List String → List String
  | [] => [x]
  | y :: ys => if charListLe x.data y.data then x :: y :: ys else y :: insertSorted x ys

/-- `sorted(...)` on strings. -/
def sortStr (l : List String) : List String := l.foldr insertSorted []

/-- `list_images`: sorted image filenames inside a disk folder. -/
def list_images (disk : List DPath) (u folder : String) : List String :=
  sortStr (((disk.filter (fun t => t.1 == u && t.2.1 == folder)).map
    (fun t => t.2.2)).filter hasImageExt)

/-! ## Identity index: similarity resolution and group creation -/

/-- The embedding actually used by the matching loop: `None` and empty
vectors are skipped (`if not emb: continue`, both for the NULL column and
for an empty "vector" entry). -/
def embVecOf (p : Person) : Option (List ℚ) :=
  match p.embedding with
  | none => none
  | some [] => none
  | some v => some v

/-- The for-loop of `find_matching_person`: running best person and score,
strict improvement (`if s > score`). -/
def bestLoop (sim : List ℚ → List ℚ → ℚ) (e : List ℚ) :
    List Person → Option Person × ℚ → Option Person × ℚ
  | [], acc => acc
  | p :: rest, acc =>
    match embVecOf p with
    | none => bestLoop sim e rest acc
    | some v =>
        bestLoop sim e rest (if sim e v > acc.2 then (some p, sim e v) else acc)

/-- `find_matching_person`: scan the owner's persons, keep the best
similarity starting from −1.0, return it only when the final score reaches
`1 − DEEPFACE_DISTANCE_THRESHOLD`. -/
def find_matching_person (sim : List ℚ → List ℚ → ℚ) (u : String)
    (e : List ℚ) (db : DB) : Option Person :=
  let r := bestLoop sim e (db.persons.filter (fun p => p.userId == u)) (none, -1)
  if MATCH_THRESHOLD ≤ r.2 then r.1 else none

/-- `create_face_person`: fresh uuid, name "Unknown", folder
`person_` + first 8 characters of the uuid, embedding = the input vector. -/
def create_face_person (gen : Nat → String) (u : String) (e : List ℚ)
    (st : State) : Person × State :=
  let pid := gen st.fresh
  let row : Person := { id := pid, userId := u, name := "Unknown",
                        folderName := "person_" ++ String.mk (pid.data.take 8),
                        embedding := some e }
  (row, { st with db := { st.db with persons := st.db.persons ++ [row] },
                  fresh := st.fresh + 1 })

/-- `_find_or_create_scene_person`: reuse the first person of this owner
with `folder_name == slug`, else insert a new row with NULL embedding. -/
def _find_or_create_scene_person (gen : Nat → String) (u slug : String)
    (st : State) : Person × State :=
  match st.db.persons.find? (fun p => p.userId == u && p.folderName == slug) with
  | some p => (p, st)
  | none =>
    let pid := gen st.fresh
    let row : Person := { id := pid, userId := u, name := sceneDisplayName slug,
                          folderName := slug, embedding := none }
    (row, { st with db := { st.db with persons := st.db.persons ++ [row] },
                    fresh := st.fresh + 1 })

/-! ## Upload pipeline -/

/-- `_copy_to_folder`: skip when the destination file already exists,
otherwise `shutil.copy2`, which may raise a storage error (oracle `fail`);
an uncaught raise carries no new file. -/
def _copy_to_folder (fail : DPath → Bool) (u folder fn : String)
    (disk : List DPath) : Except Unit (List DPath) :=
  if (u, folder, fn) ∈ disk then .ok disk
  else if fail (u, folder, fn) then .error ()
  else .ok (disk ++ [(u, folder, fn)])

/-- `_link`: unconditional insert into `photo_persons`. -/
def _link (photoId personId : String) (db : DB) : DB :=
  { db with links := db.links ++ [{ photoId := photoId, personId := personId }] }

/-- Result dictionary of `process_uploaded_image` (`persons` keeps the
whole person rows; the code stores their name/folder/id projection). -/
structure UploadResult where
  filename : String
  facesDetected : Nat
  persons : List Person
  photoId : String
  method : String
  deriving DecidableEq

/-- The face for-loop of `process_uploaded_image`: skip empty embeddings,
resolve (match or create), dedupe by person id via `seen`, copy then link.
A storage error aborts with the state at the raise. -/
def faceLoop (sim : List ℚ → List ℚ → ℚ) (gen : Nat → String)
    (fail : DPath → Bool) (u fn photoId : String) :
    List (List ℚ) → List String → State → List Person →
    Except State (State × List Person)
  | [], _, st, acc => .ok (st, acc)
  | emb :: rest, seen, st, acc =>
    if emb.isEmpty then faceLoop sim gen fail u fn photoId rest seen st acc
    else
      let pr : Person × State :=
        match find_matching_person sim u emb st.db with
        | some p => (p, st)
        | none => create_face_person gen u emb st
      let p := pr.1
      let st1 := pr.2
      if p.id ∈ seen then faceLoop sim gen fail u fn photoId rest seen st1 acc
      else
        match _copy_to_folder fail u p.folderName fn st1.disk with
        | .error _ => .error st1
        | .ok disk1 =>
          faceLoop sim gen fail u fn photoId rest (p.id :: seen)
            { st1 with disk := disk1, db := _link photoId p.id st1.db }
            (acc ++ [p])

/-- `process_uploaded_image`: insert the photo row unconditionally, then
either the face loop (≥ 1 embedding) or the scene fallback (Groq label,
slug, find-or-create, copy, link). -/
def process_uploaded_image (sim : List ℚ → List ℚ → ℚ) (gen : Nat → String)
    (fail : DPath → Bool) (u fn : String) (faces : List (List ℚ))
    (label : Option String) (st : State) :
    Except State (UploadResult × State) :=
  let photoId := gen st.fresh
  let st0 : State :=
    { st with db := { st.db with photos := st.db.photos ++
        [{ id := photoId, userId := u, filename := fn }] },
              fresh := st.fresh + 1 }
  if faces.isEmpty then
    let slug := groq_describe_for_folder label
    let pr := _find_or_create_scene_person gen u slug st0
    let p := pr.1
    let st1 := pr.2
    match _copy_to_folder fail u p.folderName fn st1.disk with
    | .error _ => .error st1
    | .ok disk1 =>
      .ok ({ filename := fn, facesDetected := 0, persons := [p],
             photoId := photoId, method := "groq_vision" },
           { st1 with disk := disk1, db := _link photoId p.id st1.db })
  else
    match faceLoop sim gen fail u fn photoId faces [] st0 [] with
    | .error e => .error e
    | .ok (st1, ps) =>
      .ok ({ filename := fn, facesDetected := faces.length, persons := ps,
             photoId := photoId, method := "deepface" }, st1)

/-- The `/upload` route loop (`routes.py`): skip empty names and files
failing `allowed_file`; otherwise build the safe name
(uuid hex + underscore + secure_filename), save the temporary file under
the user root, process it, and accumulate (count, faces).  There is no
try/except: a raised storage error aborts the remaining batch. -/
def upload_photo (sim : List ℚ → List ℚ → ℚ) (gen : Nat → String)
    (fail : DPath → Bool) (embedOf : String → List (List ℚ))
    (labelOf : String → Option String) (secure : String → String)
    (u : String) : List String → Nat × Nat → State →
    Except State ((Nat × Nat) × State)
  | [], counts, st => .ok (counts, st)
  | fn :: rest, counts, st =>
    if fn = "" then upload_photo sim gen fail embedOf labelOf secure u rest counts st
    else if !allowed_file fn then
      upload_photo sim gen fail embedOf labelOf secure u rest counts st
    else
      let safe := gen st.fresh ++ "_" ++ secure fn
      let st1 : State := { st with fresh := st.fresh + 1 }
      match _copy_to_folder fail u "" safe st1.disk with
      | .error _ => .error st1
      | .ok disk1 =>
        let st2 : State := { st1 with disk := disk1 }
        match process_uploaded_image sim gen fail u safe (embedOf fn) (labelOf fn) st2 with
        | .error e => .error e
        | .ok (r, st3) =>
          upload_photo sim gen fail embedOf labelOf secure u rest
            (counts.1 + 1, counts.2 + r.facesDetected) st3

/-! ## Person / folder management -/

/-- `delete_folder`: owner-checked lookup, collect linked photo ids, delete
all links of the group, delete photos left with no remaining link, delete
the person row, remove the disk folder recursively. -/
def delete_folder (personId u : String) (st : State) : Bool × State :=
  match st.db.persons.find? (fun p => p.id == personId && p.userId == u) with
  | none => (false, st)
  | some pr =>
    let photoIds := (st.db.links.filter (fun l => l.personId == personId)).map
      (fun l => l.photoId)
    let links1 := st.db.links.filter (fun l => !(l.personId == personId))
    let photos1 := st.db.photos.filter (fun ph =>
      !(decide (ph.id ∈ photoIds) &&
        (links1.filter (fun l => l.photoId == ph.id)).isEmpty))
    let persons1 := st.db.persons.filter (fun p => !(p.id == personId))
    let disk1 := st.disk.filter (fun t => !(t.1 == u && t.2.1 == pr.folderName))
    let db1 : DB := { st.db with persons := persons1, photos := photos1, links := links1 }
    (true, { st with db := db1, disk := disk1 })

/-- One iteration of the photo loop in `delete_photo_from_folder`: remove
the (photo, person) link, then delete the photo row when no link remains. -/
def deletePhotoStep (personId : String) (db : DB) (ph : Photo) : DB :=
  let links1 := db.links.filter (fun l =>
    !(l.photoId == ph.id && l.personId == personId))
  let photos1 :=
    if (links1.filter (fun l => l.photoId == ph.id)).isEmpty then
      db.photos.filter (fun q => !(q.id == ph.id))
    else db.photos
  { db with photos := photos1, links := links1 }

/-- `delete_photo_from_folder`: owner-checked lookup, remove the disk file,
then for every photo row of this owner with this filename remove the link
to this person and garbage-collect the photo row. -/
def delete_photo_from_folder (personId u fn : String) (st : State) :
    Bool × State :=
  match st.db.persons.find? (fun p => p.id == personId && p.userId == u) with
  | none => (false, st)
  | some pr =>
    let disk1 := st.disk.filter (fun t => !(t == (u, pr.folderName, fn)))
    let rows := st.db.photos.filter (fun ph => ph.userId == u && ph.filename == fn)
    let db1 := rows.foldl (deletePhotoStep personId) st.db
    (true, { st with db := db1, disk := disk1 })

/-- `move_photo_to_folder`: owner-checked lookups of source and destination,
missing source file → false with no change; `shutil.copy2` raises
`SameFileError` when source and destination paths coincide (uncaught);
otherwise copy, optionally delete the source file, then on the first photo
row of this owner with this filename ensure the destination link
(insert only when absent) and, when not keeping, delete the source link. -/
def move_photo_to_folder (u srcId destId fn : String) (keep : Bool)
    (st : State) : Except Unit (Bool × State) :=
  match st.db.persons.find? (fun p => p.id == srcId && p.userId == u),
        st.db.persons.find? (fun p => p.id == destId && p.userId == u) with
  | none, _ => .ok (false, st)
  | some _, none => .ok (false, st)
  | some s, some d =>
    let srcP : DPath := (u, s.folderName, fn)
    let dstP : DPath := (u, d.folderName, fn)
    if srcP ∉ st.disk then .ok (false, st)
    else if srcP = dstP then .error ()
    else
      let disk1 := if dstP ∈ st.disk then st.disk else st.disk ++ [dstP]
      let disk2 := if keep then disk1 else disk1.filter (fun t => !(t == srcP))
      match (st.db.photos.filter (fun ph => ph.userId == u && ph.filename == fn)).head? with
      | none => .ok (true, { st with disk := disk2 })
      | some ph =>
        let links1 :=
          if (st.db.links.filter (fun l =>
              l.photoId == ph.id && l.personId == destId)).isEmpty then
            st.db.links ++ [{ photoId := ph.id, personId := destId }]
          else st.db.links
        let links2 :=
          if keep then links1
          else links1.filter (fun l =>
            !(l.photoId == ph.id && l.personId == srcId))
        .ok (true, { st with db := { st.db with links := links2 }, disk := disk2 })

/-! ## Email -/

/-- Return value of `send_photos_by_email`. -/
inductive EmailResult where
  | failed (error : String)
  | sent (photosSent : Nat)
  deriving DecidableEq

/-- `_log_delivery`. -/
def _log_delivery (u personId recipient : String) (count : Nat)
    (status message : String) (db : DB) : DB :=
  { db with deliveries := db.deliveries ++
      [{ userId := u, personId := personId, recipient := recipient,
         photoCount := count, status := status, message := message }] }

/-- `send_photos_by_email`: lookup by person id only, empty listing → error;
attach at most the first 10 listed files, skipping (and not counting) files
whose read fails (oracle `attachFail`); SMTP outcome is the oracle
`smtpOk`. -/
def send_photos_by_email (attachFail : String → Bool) (smtpOk : Bool)
    (u personId recipient : String) (st : State) : EmailResult × State :=
  match st.db.persons.find? (fun p => p.id == personId) with
  | none => (.failed "Person not found", st)
  | some person =>
    let files := list_images st.disk u person.folderName
    if files.isEmpty then (.failed "No photos found", st)
    else
      let attached := (files.take 10).countP (fun f => !attachFail f)
      if smtpOk then
        (.sent attached,
         { st with db := _log_delivery u personId recipient attached "sent" "" st.db })
      else
        (.failed "smtp",
         { st with db := _log_delivery u personId recipient attached "failed" "smtp" st.db })

/-! ## Derived notions used by the claims -/

/-- Number of membership links between a photo id and a person id. -/
def countLink (links : List Link) (photoId personId : String) : Nat :=
  (links.filter (fun l => l.photoId == photoId && l.personId == personId)).length

/-- Invariant of the spec: every photo row has at least one membership link. -/
def noOrphans (db : DB) : Prop :=
  ∀ ph ∈ db.photos, ∃ l ∈ db.links, l.photoId = ph.id

/-! ## Concrete fixtures used by witnesses and counterexamples -/

/-- Failure oracle of a healthy disk: no write ever fails. -/
def noFail : DPath → Bool := fun _ => false

/-- Sample similarity: 1 for identical vectors, 0 otherwise (the two data
points the spec names: identical vectors have cosine 1, orthogonal ones 0). -/
def simW (a b : List ℚ) : ℚ := if a == b then 1 else 0

/-- Sample uuid generator. -/
def genW : Nat → String :=
  fun k => if k = 0 then "w0" else if k = 1 then "w1" else if k = 2 then "w2" else "w3"

def g1W : Person :=
  { id := "g1", userId := "u", name := "Alice", folderName := "person_g1",
    embedding := some [1, 0] }

def g2W : Person :=
  { id := "g2", userId := "u", name := "Bob", folderName := "person_g2",
    embedding := some [0, 1] }

def dbW : DB := { persons := [g1W, g2W], photos := [], links := [], deliveries := [] }

def stW : State := { db := dbW, disk := [], fresh := 0 }

def stEmpty : State :=
  { db := { persons := [], photos := [], links := [], deliveries := [] },
    disk := [], fresh := 0 }

def pAW : Person := { id := "pa", userId := "u", name := "A", folderName := "fa", embedding := none }

def pBW : Person := { id := "pb", userId := "u", name := "B", folderName := "fb", embedding := none }

/-- Two photos: x.jpg only in group pa; y.jpg in groups pa and pb. -/
def st5W : State :=
  { db := { persons := [pAW, pBW],
            photos := [{ id := "x", userId := "u", filename := "x.jpg" },
                       { id := "y", userId := "u", filename := "y.jpg" }],
            links := [{ photoId := "x", personId := "pa" },
                      { photoId := "y", personId := "pa" },
                      { photoId := "y", personId := "pb" }],
            deliveries := [] },
    disk := [("u", "fa", "x.jpg"), ("u", "fa", "y.jpg"), ("u", "fb", "y.jpg")],
    fresh := 0 }

/-- One photo x.jpg in group pa, to be moved to pb. -/
def st6W : State :=
  { db := { persons := [pAW, pBW],
            photos := [{ id := "x", userId := "u", filename := "x.jpg" }],
            links := [{ photoId := "x", personId := "pa" }],
            deliveries := [] },
    disk := [("u", "fa", "x.jpg")], fresh := 0 }

/-- A face group whose folder key collides with a possible scene slug. -/
def pColl : Person :=
  { id := "f1", userId := "u", name := "Unknown", folderName := "person_ab12cd34",
    embedding := some [1] }

def stColl : State :=
  { db := { persons := [pColl], photos := [], links := [], deliveries := [] },
    disk := [], fresh := 0 }

/-- Oracle where writing into the folder "beach" fails (disk full). -/
def failBeach : DPath → Bool := fun t => t.2.1 == "beach"

def embNone : String → List (List ℚ) := fun _ => []

def labBeach : String → Option String := fun _ => some "beach"

/-- The state at the moment the storage error aborts the two-file batch of
`claim7_counterexample`: the first file has its photo row and scene group,
no link and no classified copy; the second file is untouched. -/
def stErr7 : State :=
  { db := { persons := [{ id := "w2", userId := "u", name := "Beach",
                          folderName := "beach", embedding := none }],
            photos := [{ id := "w1", userId := "u", filename := "w0_a.jpg" }],
            links := [], deliveries := [] },
    disk := [("u", "", "w0_a.jpg")], fresh := 3 }

def pEW : Person := { id := "pe", userId := "u", name := "E", folderName := "fe", embedding := none }

/-- A group holding twelve image files. -/
def st10W : State :=
  { db := { persons := [pEW], photos := [], links := [], deliveries := [] },
    disk := [("u", "fe", "f01.jpg"), ("u", "fe", "f02.jpg"), ("u", "fe", "f03.jpg"),
             ("u", "fe", "f04.jpg"), ("u", "fe", "f05.jpg"), ("u", "fe", "f06.jpg"),
             ("u", "fe", "f07.jpg"), ("u", "fe", "f08.jpg"), ("u", "fe", "f09.jpg"),
             ("u", "fe", "f10.jpg"), ("u", "fe", "f11.jpg"), ("u", "fe", "f12.jpg")],
    fresh := 0 }

/-- Attachment oracle where reading f01.jpg fails. -/
def attachFailW : String → Bool := fun f => f == "f01.jpg"

/-- Expected result of the scene-branch witness run. -/
def r3W : UploadResult :=
  { filename := "a.jpg", facesDetected := 0,
    persons := [{ id := "w1", userId := "u", name := "Beach",
                  folderName := "beach", embedding := none }],
    photoId := "w0", method := "groq_vision" }

/-- Expected state of the scene-branch witness run. -/
def st3W : State :=
  { db := { persons := [{ id := "w1", userId := "u", name := "Beach",
                          folderName := "beach", embedding := none }],
            photos := [{ id := "w0", userId := "u", filename := "a.jpg" }],
            links := [{ photoId := "w0", personId := "w1" }],
            deliveries := [] },
    disk := [("u", "beach", "a.jpg")], fresh := 2 }

/-! ## Shared lemmas -/

theorem mem_insertSorted {x y : String} {l : List String} :
    x ∈ insertSorted y l ↔ x = y ∨ x ∈ l := by
  induction l with
  | nil => simp [insertSorted]
  | cons z zs ih =>
    simp only [insertSorted]
    split
    · simp
    · simp [ih]
      tauto

theorem mem_sortStr {x : String} {l : List String} : x ∈ sortStr l ↔ x ∈ l := by
  induction l with
  | nil => simp [sortStr]
  | cons z zs ih =>
    simp only [sortStr, List.foldr_cons] at *
    rw [mem_insertSorted, ih]
    simp

theorem mem_list_images {disk : List DPath} {u folder fn : String} :
    fn ∈ list_images disk u folder ↔
      ((u, folder, fn) ∈ disk ∧ hasImageExt fn = true) := by
  simp only [list_images, mem_sortStr, List.mem_filter, List.mem_map]
  constructor
  · rintro ⟨⟨t, ⟨ht, hcond⟩, rfl⟩, hext⟩
    obtain ⟨a, b, c⟩ := t
    simp only [Bool.and_eq_true, beq_iff_eq] at hcond
    obtain ⟨rfl, rfl⟩ := hcond
    exact ⟨ht, hext⟩
  · rintro ⟨hmem, hext⟩
    exact ⟨⟨(u, folder, fn), ⟨hmem, by simp⟩, rfl⟩, hext⟩

theorem countLink_append (links : List Link) (l : Link) (pid g : String) :
    countLink (links ++ [l]) pid g =
      countLink links pid g + (if l.photoId = pid ∧ l.personId = g then 1 else 0) := by
  simp only [countLink, List.filter_append, List.length_append]
  congr 1
  by_cases h1 : l.photoId = pid
  · by_cases h2 : l.personId = g
    · simp [List.filter_cons, h1, h2]
    · simp [List.filter_cons, h1, h2]
  · simp [List.filter_cons, h1]

theorem MATCH_THRESHOLD_eq : MATCH_THRESHOLD = 1 - DEEPFACE_DISTANCE_THRESHOLD := by
  rw [MATCH_THRESHOLD, DEEPFACE_DISTANCE_THRESHOLD, Rat.mkRat_eq_div, Rat.mkRat_eq_div]
  norm_num

theorem MATCH_THRESHOLD_val : MATCH_THRESHOLD = 3/5 := by
  rw [MATCH_THRESHOLD, Rat.mkRat_eq_div]
  norm_num

/-! ## C1: similarity resolution -/

theorem bestLoop_score_ge (sim : List ℚ → List ℚ → ℚ) (e : List ℚ)
    (L : List Person) (acc : Option Person × ℚ) :
    acc.2 ≤ (bestLoop sim e L acc).2 := by
  induction L generalizing acc with
  | nil => simp [bestLoop]
  | cons p rest ih =>
    simp only [bestLoop]
    cases hv : embVecOf p with
    | none => exact ih acc
    | some v =>
      refine le_trans ?_ (ih _)
      split
      · exact le_of_lt (by assumption)
      · exact le_refl _

theorem bestLoop_ub (sim : List ℚ → List ℚ → ℚ) (e : List ℚ)
    (L : List Person) (acc : Option Person × ℚ) (q : Person) (w : List ℚ)
    (hq : q ∈ L) (hw : embVecOf q = some w) :
    sim e w ≤ (bestLoop sim e L acc).2 := by
  induction L generalizing acc with
  | nil => cases hq
  | cons p rest ih =>
    rcases List.mem_cons.mp hq with rfl | hmem
    · simp only [bestLoop, hw]
      refine le_trans ?_ (bestLoop_score_ge sim e rest _)
      split
      · exact le_refl _
      · exact le_of_not_lt (by assumption)
    · simp only [bestLoop]
      cases hv : embVecOf p with
      | none => exact ih _ hmem
      | some v => exact ih _ hmem

theorem bestLoop_cases (sim : List ℚ → List ℚ → ℚ) (e : List ℚ)
    (L : List Person) (acc : Option Person × ℚ) :
    bestLoop sim e L acc = acc ∨
      ∃ p v, (bestLoop sim e L acc).1 = some p ∧ p ∈ L ∧
        embVecOf p = some v ∧ (bestLoop sim e L acc).2 = sim e v := by
  induction L generalizing acc with
  | nil => left; rfl
  | cons p rest ih =>
    simp only [bestLoop]
    cases hv : embVecOf p with
    | none =>
      rcases ih acc with h | ⟨q, w, h1, h2, h3, h4⟩
      · left; exact h
      · right; exact ⟨q, w, h1, List.mem_cons_of_mem _ h2, h3, h4⟩
    | some v =>
      by_cases hgt : sim e v > acc.2
      · simp only [if_pos hgt]
        rcases ih (some p, sim e v) with h | ⟨q, w, h1, h2, h3, h4⟩
        · right; exact ⟨p, v, by rw [h], List.mem_cons_self _ _, hv, by rw [h]⟩
        · right; exact ⟨q, w, h1, List.mem_cons_of_mem _ h2, h3, h4⟩
      · simp only [if_neg hgt]
        rcases ih acc with h | ⟨q, w, h1, h2, h3, h4⟩
        · left; exact h
        · right; exact ⟨q, w, h1, List.mem_cons_of_mem _ h2, h3, h4⟩

/-- C1: for every owner and input embedding, the resolution step scores
exactly the owner's groups that have a stored embedding (groups without one
are skipped), any returned group carries the maximum similarity and is
returned iff that maximum reaches the threshold `1 − 0.40 = 0.60`; when no
group reaches the threshold, `create_face_person` makes a new group with
display name "Unknown", a generated folder key, and the input vector as its
embedding.  Proved for an arbitrary similarity function `sim`, hence in
particular for cosine similarity. -/
theorem claim1_similarity_resolution (sim : List ℚ → List ℚ → ℚ)
    (u : String) (e : List ℚ) (db : DB) :
    MATCH_THRESHOLD = 1 - DEEPFACE_DISTANCE_THRESHOLD ∧
    MATCH_THRESHOLD = 3/5 ∧
    (∀ p, find_matching_person sim u e db = some p →
      p ∈ db.persons ∧ p.userId = u ∧
      ∃ v, embVecOf p = some v ∧ MATCH_THRESHOLD ≤ sim e v ∧
        ∀ q w, q ∈ db.persons → q.userId = u → embVecOf q = some w →
          sim e w ≤ sim e v) ∧
    (find_matching_person sim u e db = none ↔
      ∀ q w, q ∈ db.persons → q.userId = u → embVecOf q = some w →
        sim e w < MATCH_THRESHOLD) ∧
    (∀ gen st, (create_face_person gen u e st).1.name = "Unknown" ∧
      (create_face_person gen u e st).1.folderName =
        "person_" ++ String.mk ((gen st.fresh).data.take 8) ∧
      (create_face_person gen u e st).1.embedding = some e ∧
      (create_face_person gen u e st).2.db.persons =
        st.db.persons ++ [(create_face_person gen u e st).1]) := by
  refine ⟨MATCH_THRESHOLD_eq, MATCH_THRESHOLD_val, ?_, ?_, ?_⟩
  · intro p hp
    unfold find_matching_person at hp
    dsimp only at hp
    rcases bestLoop_cases sim e (db.persons.filter (fun p => p.userId == u))
      (none, -1) with hcase | ⟨q, v, h1, h2, h3, h4⟩
    · rw [hcase] at hp
      split at hp
      · exact absurd hp (by simp)
      · exact absurd hp (by simp)
    · split at hp
      · rw [h1] at hp
        obtain rfl : q = p := Option.some.inj hp
        have hmem := List.mem_filter.mp h2
        have huser : q.userId = u := by
          have := hmem.2
          simpa using this
        refine ⟨hmem.1, huser, v, h3, by rw [← h4]; assumption, ?_⟩
        intro q2 w hq2 hu2 hw2
        rw [← h4]
        refine bestLoop_ub sim e _ _ q2 w ?_ hw2
        exact List.mem_filter.mpr ⟨hq2, by simp [hu2]⟩
      · exact absurd hp (by simp)
  · constructor
    · intro hn q w hq hu hw
      unfold find_matching_person at hn
      dsimp only at hn
      split at hn
      · rcases bestLoop_cases sim e (db.persons.filter (fun p => p.userId == u))
          (none, -1) with hcase | ⟨q2, v, h1, h2, h3, h4⟩
        · rename_i hle
          rw [hcase] at hle
          rw [MATCH_THRESHOLD_val] at hle
          norm_num at hle
        · rw [h1] at hn
          exact absurd hn (by simp)
      · rename_i hle
        have hlt := lt_of_not_le hle
        refine lt_of_le_of_lt ?_ hlt
        refine bestLoop_ub sim e _ _ q w ?_ hw
        exact List.mem_filter.mpr ⟨hq, by simp [hu]⟩
    · intro hall
      unfold find_matching_person
      dsimp only
      split
      · rcases bestLoop_cases sim e (db.persons.filter (fun p => p.userId == u))
          (none, -1) with hcase | ⟨q, v, h1, h2, h3, h4⟩
        · rw [hcase]
        · rename_i hle
          have hmem := List.mem_filter.mp h2
          have huser : q.userId = u := by simpa using hmem.2
          have := hall q v hmem.1 huser h3
          rw [h4] at hle
          exact absurd hle (not_le_of_lt this)
      · rfl
  · intro gen st
    exact ⟨rfl, rfl, rfl, rfl⟩

theorem copy_ok_cases (fail : DPath → Bool) (u folder fn : String)
    (disk d2 : List DPath) (h : _copy_to_folder fail u folder fn disk = .ok d2) :
    ((u, folder, fn) ∈ disk ∧ d2 = disk) ∨
      (¬(u, folder, fn) ∈ disk ∧ d2 = disk ++ [(u, folder, fn)]) := by
  unfold _copy_to_folder at h
  split at h
  · left; exact ⟨by assumption, (Except.ok.inj h).symm⟩
  · split at h
    · cases h
    · right; exact ⟨by assumption, (Except.ok.inj h).symm⟩

theorem copy_noFail (u folder fn : String) (disk : List DPath) :
    _copy_to_folder noFail u folder fn disk =
      .ok (if (u, folder, fn) ∈ disk then disk else disk ++ [(u, folder, fn)]) := by
  unfold _copy_to_folder
  by_cases hmem : (u, folder, fn) ∈ disk
  · rw [if_pos hmem, if_pos hmem]
  · rw [if_neg hmem, if_neg hmem]
    rfl

theorem mem_copy_result (u folder fn : String) (disk : List DPath) :
    (u, folder, fn) ∈ (if (u, folder, fn) ∈ disk then disk else disk ++ [(u, folder, fn)]) := by
  split
  · assumption
  · simp

/-- Characterization of `_find_or_create_scene_person`: the returned group
carries the requested owner and slug; it is reused when present and
inserted when absent; under per-owner uniqueness of folder keys there is
exactly one group with this key afterwards; photos, links and disk are
untouched. -/
theorem scene_person_spec (gen : Nat → String) (u slug : String) (st : State)
    (huniq : (st.db.persons.filter (fun q => q.userId == u &&
        q.folderName == slug)).length ≤ 1) :
    (_find_or_create_scene_person gen u slug st).1.userId = u ∧
    (_find_or_create_scene_person gen u slug st).1.folderName = slug ∧
    (((_find_or_create_scene_person gen u slug st).1 ∈ st.db.persons ∧
        (_find_or_create_scene_person gen u slug st).2.db.persons = st.db.persons) ∨
      (¬(_find_or_create_scene_person gen u slug st).1 ∈ st.db.persons ∧
        (_find_or_create_scene_person gen u slug st).2.db.persons =
          st.db.persons ++ [(_find_or_create_scene_person gen u slug st).1])) ∧
    ((_find_or_create_scene_person gen u slug st).2.db.persons.filter
      (fun q => q.userId == u && q.folderName == slug)).length = 1 ∧
    (_find_or_create_scene_person gen u slug st).2.db.photos = st.db.photos ∧
    (_find_or_create_scene_person gen u slug st).2.db.links = st.db.links ∧
    (_find_or_create_scene_person gen u slug st).2.disk = st.disk := by
  unfold _find_or_create_scene_person
  cases hfind : st.db.persons.find? (fun q => q.userId == u && q.folderName == slug) with
  | some p =>
    have hpred := List.find?_some hfind
    have hmem := List.mem_of_find?_eq_some hfind
    simp only [Bool.and_eq_true, beq_iff_eq] at hpred
    have hlen : 0 < (st.db.persons.filter (fun q => q.userId == u &&
        q.folderName == slug)).length := by
      refine List.length_pos_of_mem (a := p) ?_
      refine List.mem_filter.mpr ⟨hmem, ?_⟩
      simp [hpred.1, hpred.2]
    refine ⟨hpred.1, hpred.2, Or.inl ⟨hmem, rfl⟩, ?_, rfl, rfl, rfl⟩
    show (st.db.persons.filter (fun q => q.userId == u && q.folderName == slug)).length = 1
    omega
  | none =>
    have hall := List.find?_eq_none.mp hfind
    have hfilter : st.db.persons.filter (fun q => q.userId == u &&
        q.folderName == slug) = [] := by
      refine List.filter_eq_nil_iff.mpr ?_
      intro q hq
      simpa using hall q hq
    refine ⟨rfl, rfl, Or.inr ⟨?_, rfl⟩, ?_, rfl, rfl, rfl⟩
    · intro hmem
      have := hall _ hmem
      simp at this
    · rw [List.filter_append, hfilter]
      simp

/-- Witness for C1: on a database with two embedded groups and the input
vector [1, 0], the resolution returns the identically-embedded group, which
belongs to the owner. -/
theorem claim1_witness :
    find_matching_person simW "u" [1, 0] dbW = some g1W ∧
    g1W ∈ dbW.persons ∧ g1W.userId = "u" := by
  have h := (claim1_similarity_resolution simW "u" [1, 0] dbW).2.2.1 g1W (by decide)
  exact ⟨by decide, h.1, h.2.1⟩

/-- Unfolding of the zero-faces branch of `process_uploaded_image`. -/
theorem process_scene_eq (sim : List ℚ → List ℚ → ℚ) (gen : Nat → String)
    (fail : DPath → Bool) (u fn : String) (label : Option String) (st : State) :
    process_uploaded_image sim gen fail u fn [] label st =
      (let photoId := gen st.fresh
       let st0 : State :=
         { st with db := { st.db with photos := st.db.photos ++
             [{ id := photoId, userId := u, filename := fn }] },
                   fresh := st.fresh + 1 }
       let pr := _find_or_create_scene_person gen u (groq_describe_for_folder label) st0
       match _copy_to_folder fail u pr.1.folderName fn pr.2.disk with
       | .error _ => .error pr.2
       | .ok disk1 =>
         .ok ({ filename := fn, facesDetected := 0, persons := [pr.1],
                photoId := photoId, method := "groq_vision" },
              { pr.2 with disk := disk1, db := _link photoId pr.1.id pr.2.db })) := rfl

/-- C2 (amended): for a zero-face upload the pipeline resolves the Scene
Labeler output through `groq_slug` (lowercase, each non-word character
replaced by a separator, truncation to 40 characters, outer separators
stripped, fallback "uncategorised"), attaches the image to exactly one
group with that folder key — reused when present, created otherwise — and
in particular "Beach Sunset!!" resolves to "beach_sunset". -/
theorem claim2_scene_slug (sim : List ℚ → List ℚ → ℚ) (gen : Nat → String)
    (u fn raw : String) (st : State)
    (huniq : (st.db.persons.filter (fun q => q.userId == u &&
        q.folderName == groq_slug raw)).length ≤ 1) :
    groq_slug "Beach Sunset!!" = "beach_sunset" ∧
    ∃ p st2,
      process_uploaded_image sim gen noFail u fn [] (some raw) st =
        .ok ({ filename := fn, facesDetected := 0, persons := [p],
               photoId := gen st.fresh, method := "groq_vision" }, st2) ∧
      p.userId = u ∧ p.folderName = groq_slug raw ∧
      ((p ∈ st.db.persons ∧ st2.db.persons = st.db.persons) ∨
        (¬p ∈ st.db.persons ∧ st2.db.persons = st.db.persons ++ [p])) ∧
      (st2.db.persons.filter (fun q => q.userId == u &&
        q.folderName == groq_slug raw)).length = 1 ∧
      (u, p.folderName, fn) ∈ st2.disk := by
  refine ⟨by decide, ?_⟩
  have heq := process_scene_eq sim gen noFail u fn (some raw) st
  dsimp only at heq
  rw [copy_noFail] at heq
  have hsp := scene_person_spec gen u (groq_slug raw)
    { st with db := { st.db with photos := st.db.photos ++
        [{ id := gen st.fresh, userId := u, filename := fn }] },
              fresh := st.fresh + 1 } huniq
  obtain ⟨hu1, hf1, hins, hlen, hph, hlk, hdk⟩ := hsp
  refine ⟨_, _, heq, hu1, hf1, ?_, ?_, ?_⟩
  · exact hins
  · exact hlen
  · exact mem_copy_result u _ fn _

/-- Counterexample for C2: the claim describes the normalization as
collapsing runs of non-word characters to one separator, but the code
replaces each such character separately: on the label "Beach!!Sunset" the
code produces "beach__sunset" while the claimed normalization gives
"beach_sunset". -/
theorem claim2_counterexample :
    groq_describe_for_folder (some "Beach!!Sunset") = "beach__sunset" ∧
    spec_slug "Beach!!Sunset" = "beach_sunset" ∧
    ¬groq_describe_for_folder (some "Beach!!Sunset") = spec_slug "Beach!!Sunset" :=
  ⟨by decide, by decide, by decide⟩

/-- Witness for C2 (amended): the claim's own example evaluates as stated. -/
theorem claim2_witness : groq_slug "Beach Sunset!!" = "beach_sunset" :=
  (claim2_scene_slug simW genW "u" "b.jpg" "Beach Sunset!!" stEmpty (by decide)).1

/-- C4: storing an image into a group's storage location is idempotent in
the filename: a file whose name already exists at the destination is
skipped, so storing the same name again leaves the listing without a
duplicate entry (the multiplicity of the path is max of the old one and 1). -/
theorem claim4_copy_idempotent (fail : DPath → Bool) (u folder fn : String)
    (disk disk2 : List DPath) :
    ((u, folder, fn) ∈ disk → _copy_to_folder fail u folder fn disk = .ok disk) ∧
    (_copy_to_folder fail u folder fn disk = .ok disk2 →
      _copy_to_folder fail u folder fn disk2 = .ok disk2 ∧
      disk2.count (u, folder, fn) = max (disk.count (u, folder, fn)) 1) := by
  constructor
  · intro hmem
    unfold _copy_to_folder
    rw [if_pos hmem]
  · intro hok
    rcases copy_ok_cases fail u folder fn disk disk2 hok with ⟨hmem, heq2⟩ | ⟨hmem, heq2⟩
    · rw [heq2]
      have h1 : 0 < disk.count (u, folder, fn) := List.count_pos_iff.mpr hmem
      constructor
      · unfold _copy_to_folder
        rw [if_pos hmem]
      · exact (Nat.max_eq_left h1).symm
    · rw [heq2]
      have h0 : disk.count (u, folder, fn) = 0 := List.count_eq_zero.mpr hmem
      constructor
      · unfold _copy_to_folder
        rw [if_pos (by simp)]
      · rw [List.count_append, h0]
        simp

/-- Witness for C4: re-storing an existing filename returns the unchanged
listing. -/
theorem claim4_witness :
    _copy_to_folder noFail "u" "fa" "x.jpg" [("u", "fa", "x.jpg")] =
      .ok [("u", "fa", "x.jpg")] :=
  (claim4_copy_idempotent noFail "u" "fa" "x.jpg" [("u", "fa", "x.jpg")]
    [("u", "fa", "x.jpg")]).1 (by decide)

theorem countLink_eq_zero (links : List Link) (pid : String)
    (h : ∀ l ∈ links, ¬ l.photoId = pid) (g : String) :
    countLink links pid g = 0 := by
  unfold countLink
  rw [List.length_eq_zero]
  refine List.filter_eq_nil_iff.mpr ?_
  intro l hl
  simp [h l hl]

theorem scene_person_links (gen : Nat → String) (u slug : String) (st : State) :
    (_find_or_create_scene_person gen u slug st).2.db.links = st.db.links := by
  unfold _find_or_create_scene_person
  cases st.db.persons.find? (fun q => q.userId == u && q.folderName == slug) <;> rfl

/-- During the face loop the number of links from the uploaded photo to any
group never exceeds one: the `seen` set blocks a second link to the same
group id. -/
theorem faceLoop_links_bound (sim : List ℚ → List ℚ → ℚ) (gen : Nat → String)
    (fail : DPath → Bool) (u fn photoId : String) :
    ∀ (faces : List (List ℚ)) (seen : List String) (st : State)
      (acc : List Person) (st2 : State) (ps : List Person),
      faceLoop sim gen fail u fn photoId faces seen st acc = .ok (st2, ps) →
      (∀ g, countLink st.db.links photoId g ≤ if g ∈ seen then 1 else 0) →
      ∀ g, countLink st2.db.links photoId g ≤ 1 := by
  intro faces
  induction faces with
  | nil =>
    intro seen st acc st2 ps h hinv g
    simp only [faceLoop] at h
    have h2 := Except.ok.inj h
    have hst : st = st2 := congrArg Prod.fst h2
    subst hst
    refine le_trans (hinv g) ?_
    split <;> omega
  | cons emb rest ih =>
    intro seen st acc st2 ps h hinv g
    simp only [faceLoop] at h
    by_cases he : emb.isEmpty
    · rw [if_pos he] at h
      exact ih seen st acc st2 ps h hinv g
    · rw [if_neg he] at h
      cases hf : find_matching_person sim u emb st.db with
      | some p =>
        rw [hf] at h
        dsimp only at h
        by_cases hs : p.id ∈ seen
        · rw [if_pos hs] at h
          exact ih seen st acc st2 ps h hinv g
        · rw [if_neg hs] at h
          cases hc : _copy_to_folder fail u p.folderName fn st.disk with
          | error e =>
            rw [hc] at h
            cases h
          | ok disk1 =>
            rw [hc] at h
            refine ih _ _ _ _ _ h ?_ g
            intro g2
            show countLink (st.db.links ++
              [{ photoId := photoId, personId := p.id }]) photoId g2 ≤ _
            rw [countLink_append]
            by_cases hg : g2 = p.id
            · rw [hg]
              have h1 : countLink st.db.links photoId p.id = 0 := by
                have hh := hinv p.id
                rw [if_neg hs] at hh
                omega
              simp [h1, List.mem_cons]
            · have hbase := hinv g2
              by_cases hgs : g2 ∈ seen
              · rw [if_pos hgs] at hbase
                simp [List.mem_cons, hgs, Ne.symm hg]
                omega
              · rw [if_neg hgs] at hbase
                simp [List.mem_cons, hgs, hg, Ne.symm hg]
                omega
      | none =>
        rw [hf] at h
        dsimp only at h
        by_cases hs : (create_face_person gen u emb st).1.id ∈ seen
        · rw [if_pos hs] at h
          refine ih seen _ acc st2 ps h ?_ g
          intro g2
          exact hinv g2
        · rw [if_neg hs] at h
          cases hc : _copy_to_folder fail u
              (create_face_person gen u emb st).1.folderName fn
              (create_face_person gen u emb st).2.disk with
          | error e =>
            rw [hc] at h
            cases h
          | ok disk1 =>
            rw [hc] at h
            refine ih _ _ _ _ _ h ?_ g
            intro g2
            show countLink (st.db.links ++
              [{ photoId := photoId,
                 personId := (create_face_person gen u emb st).1.id }]) photoId g2 ≤ _
            rw [countLink_append]
            by_cases hg : g2 = (create_face_person gen u emb st).1.id
            · rw [hg]
              have h1 : countLink st.db.links photoId
                  (create_face_person gen u emb st).1.id = 0 := by
                have hh := hinv (create_face_person gen u emb st).1.id
                rw [if_neg hs] at hh
                omega
              simp [h1, List.mem_cons]
            · have hbase := hinv g2
              by_cases hgs : g2 ∈ seen
              · rw [if_pos hgs] at hbase
                simp [List.mem_cons, hgs, Ne.symm hg]
                omega
              · rw [if_neg hgs] at hbase
                simp [List.mem_cons, hgs, hg, Ne.symm hg]
                omega

/-- Unfolding of the face branch of `process_uploaded_image`. -/
theorem process_face_eq (sim : List ℚ → List ℚ → ℚ) (gen : Nat → String)
    (fail : DPath → Bool) (u fn : String) (faces : List (List ℚ))
    (label : Option String) (st : State) (h : ¬faces.isEmpty = true) :
    process_uploaded_image sim gen fail u fn faces label st =
      (match faceLoop sim gen fail u fn (gen st.fresh) faces []
          { st with db := { st.db with photos := st.db.photos ++
              [{ id := gen st.fresh, userId := u, filename := fn }] },
                    fresh := st.fresh + 1 } [] with
       | .error e => .error e
       | .ok (st1, ps) =>
         .ok ({ filename := fn, facesDetected := faces.length, persons := ps,
                photoId := gen st.fresh, method := "deepface" }, st1)) := by
  unfold process_uploaded_image
  dsimp only
  rw [if_neg h]

/-- C3: for every processed upload whose photo id is fresh, the final state
links the photo to each group at most once, even when several embeddings of
the image resolve to the same group (dedup by group id via `seen`). -/
theorem claim3_attach_once (sim : List ℚ → List ℚ → ℚ) (gen : Nat → String)
    (fail : DPath → Bool) (u fn : String) (faces : List (List ℚ))
    (label : Option String) (st : State)
    (hfresh : ∀ l ∈ st.db.links, ¬ l.photoId = gen st.fresh) :
    ∀ r st2, process_uploaded_image sim gen fail u fn faces label st = .ok (r, st2) →
      ∀ g, countLink st2.db.links r.photoId g ≤ 1 := by
  intro r st2 h g
  have hzero : ∀ g2, countLink st.db.links (gen st.fresh) g2 = 0 :=
    countLink_eq_zero st.db.links (gen st.fresh) hfresh
  by_cases hempty : faces.isEmpty
  · have hnil : faces = [] := by
      cases faces with
      | nil => rfl
      | cons a l => simp at hempty
    subst hnil
    rw [process_scene_eq] at h
    dsimp only at h
    set pr := _find_or_create_scene_person gen u (groq_describe_for_folder label)
      { st with db := { st.db with photos := st.db.photos ++
          [{ id := gen st.fresh, userId := u, filename := fn }] },
                fresh := st.fresh + 1 } with hpr
    cases hc : _copy_to_folder fail u pr.1.folderName fn pr.2.disk with
    | error e =>
      rw [hc] at h
      cases h
    | ok disk1 =>
      rw [hc] at h
      dsimp only at h
      have h2 := Except.ok.inj h
      have hr : r = { filename := fn, facesDetected := 0, persons := [pr.1],
                      photoId := gen st.fresh, method := "groq_vision" } :=
        (congrArg Prod.fst h2).symm
      have hst2 : st2 = { db := _link (gen st.fresh) pr.1.id pr.2.db, disk := disk1, fresh := pr.2.fresh } :=
        (congrArg Prod.snd h2).symm
      subst hst2
      have hlinks : pr.2.db.links = st.db.links := by
        rw [hpr]
        exact scene_person_links gen u (groq_describe_for_folder label) _
      have hrp : r.photoId = gen st.fresh := by rw [hr]
      rw [hrp]
      show countLink (pr.2.db.links ++
        [{ photoId := gen st.fresh, personId := pr.1.id }]) (gen st.fresh) g ≤ 1
      rw [countLink_append, hlinks, hzero g]
      split <;> omega
  · rw [process_face_eq sim gen fail u fn faces label st hempty] at h
    cases hL : faceLoop sim gen fail u fn (gen st.fresh) faces []
        { st with db := { st.db with photos := st.db.photos ++
            [{ id := gen st.fresh, userId := u, filename := fn }] },
                  fresh := st.fresh + 1 } [] with
    | error e =>
      rw [hL] at h
      cases h
    | ok pair =>
      obtain ⟨st1, ps⟩ := pair
      rw [hL] at h
      dsimp only at h
      have h2 := Except.ok.inj h
      have hr : r = { filename := fn, facesDetected := faces.length, persons := ps,
                      photoId := gen st.fresh, method := "deepface" } :=
        (congrArg Prod.fst h2).symm
      have hst2 : st2 = st1 := (congrArg Prod.snd h2).symm
      subst hst2
      have hrp : r.photoId = gen st.fresh := by rw [hr]
      rw [hrp]
      refine faceLoop_links_bound sim gen fail u fn (gen st.fresh) faces [] _ [] _ ps hL ?_ g
      intro g2
      show countLink st.db.links (gen st.fresh) g2 ≤ if g2 ∈ ([] : List String) then 1 else 0
      rw [hzero g2]
      simp

/-- Witness for C3: the scene-branch run of the pipeline on an empty
database links the uploaded photo to the resolved group exactly once. -/
theorem claim3_witness :
    countLink st3W.db.links r3W.photoId "w1" ≤ 1 :=
  claim3_attach_once simW genW noFail "u" "a.jpg" [] (some "Beach") stEmpty
    (by decide) r3W st3W (by decide) "w1"

/-- C5: deleting a group checks ownership (false with no mutation when not
found or not owned); on success it removes every membership link of the
group, deletes exactly the photos whose links thereby become empty while
photos with surviving links keep them, deletes the person row, and empties
the group's storage listing. -/
theorem claim5_delete_cascade (personId u : String) (st : State) :
    ((¬∃ p ∈ st.db.persons, p.id = personId ∧ p.userId = u) →
      delete_folder personId u st = (false, st)) ∧
    (∀ pr, st.db.persons.find? (fun p => p.id == personId && p.userId == u) = some pr →
      (delete_folder personId u st).1 = true ∧
      (∀ l, l ∈ (delete_folder personId u st).2.db.links ↔
        (l ∈ st.db.links ∧ ¬l.personId = personId)) ∧
      (∀ ph, ph ∈ (delete_folder personId u st).2.db.photos ↔
        (ph ∈ st.db.photos ∧
          ((¬∃ l ∈ st.db.links, l.personId = personId ∧ l.photoId = ph.id) ∨
            ∃ l ∈ st.db.links, l.photoId = ph.id ∧ ¬l.personId = personId))) ∧
      (∀ p, p ∈ (delete_folder personId u st).2.db.persons ↔
        (p ∈ st.db.persons ∧ ¬p.id = personId)) ∧
      list_images (delete_folder personId u st).2.disk u pr.folderName = []) := by
  constructor
  · intro hne
    unfold delete_folder
    have hfind : st.db.persons.find? (fun p => p.id == personId && p.userId == u) = none := by
      rw [List.find?_eq_none]
      intro p hp
      simp only [Bool.and_eq_true, beq_iff_eq, not_and]
      intro h1 h2
      exact hne ⟨p, hp, h1, h2⟩
    rw [hfind]
  · intro pr hfind
    refine ⟨?_, ?_, ?_, ?_, ?_⟩
    · unfold delete_folder
      rw [hfind]
    · intro l
      unfold delete_folder
      rw [hfind]
      dsimp only
      simp [List.mem_filter]
    · intro ph
      unfold delete_folder
      rw [hfind]
      dsimp only
      rw [List.mem_filter]
      simp only [Bool.not_eq_true', Bool.and_eq_false_iff, decide_eq_false_iff_not,
        List.mem_map, List.mem_filter, Bool.and_eq_true, beq_iff_eq]
      have hiff : ∀ (m : List Link), (m.isEmpty = false ↔ ∃ x, x ∈ m) := by
        intro m
        cases m <;> simp
      rw [hiff]
      constructor
      · rintro ⟨hmem, hcase⟩
        refine ⟨hmem, ?_⟩
        rcases hcase with hnil | ⟨l, hl⟩
        · left
          rintro ⟨l, hl, hper, hpid⟩
          exact hnil ⟨l, ⟨hl, hper⟩, hpid⟩
        · simp only [List.mem_filter, Bool.and_eq_true, beq_iff_eq, Bool.not_eq_true'] at hl
          right
          exact ⟨l, hl.1.1, hl.2, by simpa using hl.1.2⟩
      · rintro ⟨hmem, hcase⟩
        refine ⟨hmem, ?_⟩
        rcases hcase with hno | ⟨l, hl, hpid, hper⟩
        · left
          rintro ⟨l, ⟨hl, hper⟩, hpid⟩
          exact hno ⟨l, hl, hper, hpid⟩
        · right
          refine ⟨l, ?_⟩
          simp only [List.mem_filter, Bool.and_eq_true, beq_iff_eq, Bool.not_eq_true']
          exact ⟨⟨hl, by simpa using hper⟩, hpid⟩
    · intro p
      unfold delete_folder
      rw [hfind]
      dsimp only
      simp [List.mem_filter]
    · unfold delete_folder
      rw [hfind]
      dsimp only
      unfold list_images
      rw [List.filter_filter]
      have hnil : st.disk.filter (fun a => a.1 == u && a.2.1 == pr.folderName &&
          !(a.1 == u && a.2.1 == pr.folderName)) = [] := by
        refine List.filter_eq_nil_iff.mpr ?_
        intro t ht
        cases h1 : (t.1 == u) <;> cases h2 : (t.2.1 == pr.folderName) <;> simp [h1, h2]
      rw [hnil]
      rfl

/-- Witness for C5: deleting group pa removes photo x (its only link was to
pa), keeps photo y through its link to pb, removes pa and empties the fa
listing. -/
theorem claim5_witness :
    (delete_folder "pa" "u" st5W).1 = true ∧
    list_images (delete_folder "pa" "u" st5W).2.disk "u" "fa" = [] := by
  have h := (claim5_delete_cascade "pa" "u" st5W).2 pAW (by decide)
  exact ⟨h.1, h.2.2.2.2⟩

theorem countLink_filter_ne (links : List Link) (pid a b : String) (hne : ¬b = a) :
    countLink (links.filter (fun l => !(l.photoId == pid && l.personId == a))) pid b =
      countLink links pid b := by
  unfold countLink
  rw [List.filter_filter]
  congr 1
  refine List.filter_congr ?_
  intro l hl
  cases hp : (l.photoId == pid) <;> cases hb : (l.personId == b) <;> simp_all [beq_iff_eq]

theorem countLink_filter_self (links : List Link) (pid a : String) :
    countLink (links.filter (fun l => !(l.photoId == pid && l.personId == a))) pid a = 0 := by
  unfold countLink
  rw [List.filter_filter, List.length_eq_zero]
  refine List.filter_eq_nil_iff.mpr ?_
  intro l hl
  cases hp : (l.photoId == pid) <;> cases hb : (l.personId == a) <;> simp_all

/-- C6: moving a photo between two owned groups with distinct folders: when
the source file is missing the call returns false with no mutation; when it
exists, with keep_in_source=false the file ends up absent from the source
listing and present in the destination listing, and the source membership
link is removed; with keep_in_source=true it is present in both listings;
in both cases the destination membership link is ensured without ever being
duplicated (its multiplicity becomes max of the old one and 1). -/
theorem claim6_move_photo (u srcId destId fn : String) (keep : Bool) (st : State)
    (s d : Person) (ph : Photo)
    (hs : st.db.persons.find? (fun p => p.id == srcId && p.userId == u) = some s)
    (hd : st.db.persons.find? (fun p => p.id == destId && p.userId == u) = some d)
    (hdiff : ¬s.folderName = d.folderName)
    (hph : (st.db.photos.filter (fun q => q.userId == u && q.filename == fn)).head? = some ph)
    (hext : hasImageExt fn = true) :
    (¬(u, s.folderName, fn) ∈ st.disk →
      move_photo_to_folder u srcId destId fn keep st = .ok (false, st)) ∧
    ((u, s.folderName, fn) ∈ st.disk →
      ∃ st2, move_photo_to_folder u srcId destId fn keep st = .ok (true, st2) ∧
        fn ∈ list_images st2.disk u d.folderName ∧
        (keep = false → ¬fn ∈ list_images st2.disk u s.folderName) ∧
        (keep = true → fn ∈ list_images st2.disk u s.folderName) ∧
        countLink st2.db.links ph.id destId =
          max (countLink st.db.links ph.id destId) 1 ∧
        (keep = false → countLink st2.db.links ph.id srcId = 0)) := by
  have hids : ¬srcId = destId := by
    intro he
    rw [he] at hs
    rw [hs] at hd
    exact hdiff (by rw [Option.some.inj hd])
  have hPne : ¬((u, s.folderName, fn) : DPath) = (u, d.folderName, fn) := by
    intro hp
    exact hdiff (congrArg (fun t => t.2.1) hp)
  constructor
  · intro hnm
    unfold move_photo_to_folder
    rw [hs, hd]
    dsimp only
    rw [if_pos hnm]
  · intro hmem
    unfold move_photo_to_folder
    rw [hs, hd]
    dsimp only
    rw [if_neg (not_not_intro hmem), if_neg hPne]
    rw [hph]
    (try dsimp only)
    have hd1dst : ((u, d.folderName, fn) : DPath) ∈
        (if ((u, d.folderName, fn) : DPath) ∈ st.disk then st.disk
         else st.disk ++ [(u, d.folderName, fn)]) := by
      split
      · assumption
      · simp
    have hd1src : ((u, s.folderName, fn) : DPath) ∈
        (if ((u, d.folderName, fn) : DPath) ∈ st.disk then st.disk
         else st.disk ++ [(u, d.folderName, fn)]) := by
      split
      · exact hmem
      · exact List.mem_append_left _ hmem
    refine ⟨_, rfl, ?_, ?_, ?_, ?_, ?_⟩
    · refine mem_list_images.mpr ⟨?_, hext⟩
      cases keep
      · refine List.mem_filter.mpr ⟨hd1dst, ?_⟩
        simp only [Bool.not_eq_true']
        rw [beq_eq_false_iff_ne]
        intro hp
        exact hPne hp.symm
      · exact hd1dst
    · cases keep
      · intro _
        rw [mem_list_images]
        rintro ⟨hmem2, _⟩
        have := (List.mem_filter.mp hmem2).2
        simp at this
      · intro h
        cases h
    · cases keep
      · intro h
        cases h
      · intro _
        exact mem_list_images.mpr ⟨hd1src, hext⟩
    · dsimp only
      have hcount1 : countLink (if (st.db.links.filter (fun l =>
            l.photoId == ph.id && l.personId == destId)).isEmpty = true then
              st.db.links ++ [{ photoId := ph.id, personId := destId }]
            else st.db.links) ph.id destId =
          max (countLink st.db.links ph.id destId) 1 := by
        cases hdup : (st.db.links.filter (fun l =>
            l.photoId == ph.id && l.personId == destId)).isEmpty
        · rw [if_neg Bool.false_ne_true]
          have hpos : 0 < countLink st.db.links ph.id destId := by
            unfold countLink
            cases hft : st.db.links.filter (fun l =>
                l.photoId == ph.id && l.personId == destId) with
            | nil => rw [hft] at hdup; simp at hdup
            | cons a l => simp [hft]
          exact (Nat.max_eq_left hpos).symm
        · rw [if_pos rfl]
          have hzero : countLink st.db.links ph.id destId = 0 := by
            unfold countLink
            rw [List.isEmpty_iff] at hdup
            rw [hdup]
            rfl
          rw [countLink_append, hzero]
          simp
      by_cases hk : keep = true
      · rw [if_pos hk]
        exact hcount1
      · rw [if_neg hk]
        rw [countLink_filter_ne _ _ _ _ (fun he => hids he.symm)]
        exact hcount1
    · intro hk
      dsimp only
      rw [hk]
      rw [if_neg Bool.false_ne_true]
      exact countLink_filter_self _ ph.id srcId

/-- Witness for C6: moving x.jpg from group pa to pb without keeping the
source leaves it only in fb's listing, with the destination link ensured
and the source link removed. -/
theorem claim6_witness :
    (match move_photo_to_folder "u" "pa" "pb" "x.jpg" false st6W with
     | .ok r => r.1 = true ∧ "x.jpg" ∈ list_images r.2.disk "u" "fb" ∧
                ¬"x.jpg" ∈ list_images r.2.disk "u" "fa" ∧
                countLink r.2.db.links "x" "pb" = 1 ∧
                countLink r.2.db.links "x" "pa" = 0
     | .error _ => False) := by
  obtain ⟨st2, heq, hin, hout, hkeep, hcnt, hsrc⟩ :=
    (claim6_move_photo "u" "pa" "pb" "x.jpg" false st6W pAW pBW
      { id := "x", userId := "u", filename := "x.jpg" }
      (by decide) (by decide) (by decide) (by decide) (by decide)).2 (by decide)
  rw [heq]
  refine ⟨rfl, hin, hout rfl, ?_, hsrc rfl⟩
  rw [hcnt]
  decide

/-- C7 (amended): there is no per-file error handling for storage failures:
when storing a file raises (either the temporary save or the classified
copy), the exception propagates out of `process_uploaded_image` and the
upload route loop, aborting the whole batch — the remaining files are never
processed, whatever they are. -/
theorem claim7_storage_failure_aborts (sim : List ℚ → List ℚ → ℚ)
    (gen : Nat → String) (fail : DPath → Bool)
    (embedOf : String → List (List ℚ)) (labelOf : String → Option String)
    (secure : String → String) (u fn : String) (rest : List String)
    (counts : Nat × Nat) (st : State) (disk1 : List DPath) (stErr : State)
    (h1 : ¬fn = "")
    (h2 : allowed_file fn = true)
    (h3 : _copy_to_folder fail u "" (gen st.fresh ++ "_" ++ secure fn) st.disk = .ok disk1)
    (h4 : process_uploaded_image sim gen fail u (gen st.fresh ++ "_" ++ secure fn)
        (embedOf fn) (labelOf fn)
        { db := st.db, disk := disk1, fresh := st.fresh + 1 } = .error stErr) :
    upload_photo sim gen fail embedOf labelOf secure u (fn :: rest) counts st =
      .error stErr := by
  rw [upload_photo]
  rw [if_neg h1]
  rw [if_neg (by rw [h2]; decide)]
  dsimp only
  rw [h3]
  dsimp only
  rw [h4]

/-- Counterexample for C7: a two-file batch where storing the first file
fails (disk full while copying into the "beach" folder) returns the
uncaught error; the error state records only the first file — the second
file was never processed, so the batch did not continue. -/
theorem claim7_counterexample :
    upload_photo simW genW failBeach embNone labBeach (fun s => s) "u"
      ["a.jpg", "b.jpg"] (0, 0) stEmpty = .error stErr7 ∧
    stErr7.db.photos.map Photo.filename = ["w0_a.jpg"] := by
  exact ⟨by decide, by decide⟩

/-- Witness for C7 (amended): the abort theorem applied to the concrete
failing two-file batch. -/
theorem claim7_witness :
    upload_photo simW genW failBeach embNone labBeach (fun s => s) "u"
      ["a.jpg", "b.jpg"] (0, 0) stEmpty = .error stErr7 :=
  claim7_storage_failure_aborts simW genW failBeach embNone labBeach
    (fun s => s) "u" "a.jpg" ["b.jpg"] (0, 0) stEmpty [("u", "", "w0_a.jpg")]
    stErr7 (by decide) (by decide) (by decide) (by decide)

theorem find_some_embVec (sim : List ℚ → List ℚ → ℚ) (u : String) (e : List ℚ)
    (db : DB) (p : Person) (h : find_matching_person sim u e db = some p) :
    ∃ v, embVecOf p = some v := by
  unfold find_matching_person at h
  dsimp only at h
  rcases bestLoop_cases sim e (db.persons.filter (fun q => q.userId == u)) (none, -1)
    with hcase | ⟨q, v, h1, h2, h3, h4⟩
  · rw [hcase] at h
    split at h
    · cases h
    · cases h
  · split at h
    · rw [h1] at h
      obtain rfl := Option.some.inj h
      exact ⟨v, h3⟩
    · cases h

theorem embedding_ne_none_of_embVec (p : Person) (v : List ℚ)
    (h : embVecOf p = some v) : ¬p.embedding = none := by
  intro hn
  unfold embVecOf at h
  rw [hn] at h
  cases h

theorem scene_person_embedding (gen : Nat → String) (u slug : String) (st : State)
    (hclean : ∀ p ∈ st.db.persons, p.userId = u → p.folderName = slug →
      p.embedding = none) :
    (_find_or_create_scene_person gen u slug st).1.embedding = none := by
  unfold _find_or_create_scene_person
  cases hfind : st.db.persons.find? (fun q => q.userId == u && q.folderName == slug) with
  | some p =>
    have hpred := List.find?_some hfind
    have hmem := List.mem_of_find?_eq_some hfind
    simp only [Bool.and_eq_true, beq_iff_eq] at hpred
    exact hclean p hmem hpred.1 hpred.2
  | none => rfl

/-- Every person attached by the face loop has a non-null embedding: a
matched group was scored (so it stores a vector) and a created group stores
the input vector. -/
theorem faceLoop_embeddings (sim : List ℚ → List ℚ → ℚ) (gen : Nat → String)
    (fail : DPath → Bool) (u fn photoId : String) :
    ∀ (faces : List (List ℚ)) (seen : List String) (st : State)
      (acc : List Person) (st2 : State) (ps : List Person),
      faceLoop sim gen fail u fn photoId faces seen st acc = .ok (st2, ps) →
      (∀ p ∈ acc, ¬p.embedding = none) →
      ∀ p ∈ ps, ¬p.embedding = none := by
  intro faces
  induction faces with
  | nil =>
    intro seen st acc st2 ps h hacc
    simp only [faceLoop] at h
    have h2 := Except.ok.inj h
    have hps : acc = ps := congrArg Prod.snd h2
    subst hps
    exact hacc
  | cons emb rest ih =>
    intro seen st acc st2 ps h hacc
    simp only [faceLoop] at h
    by_cases he : emb.isEmpty
    · rw [if_pos he] at h
      exact ih seen st acc st2 ps h hacc
    · rw [if_neg he] at h
      cases hf : find_matching_person sim u emb st.db with
      | some p =>
        rw [hf] at h
        dsimp only at h
        by_cases hs : p.id ∈ seen
        · rw [if_pos hs] at h
          exact ih _ _ _ _ _ h hacc
        · rw [if_neg hs] at h
          cases hc : _copy_to_folder fail u p.folderName fn st.disk with
          | error e =>
            rw [hc] at h
            cases h
          | ok disk1 =>
            rw [hc] at h
            refine ih _ _ _ _ _ h ?_
            intro q hq
            rcases List.mem_append.mp hq with hq1 | hq2
            · exact hacc q hq1
            · obtain rfl : q = p := by simpa using hq2
              obtain ⟨v, hv⟩ := find_some_embVec sim u emb st.db q hf
              exact embedding_ne_none_of_embVec q v hv
      | none =>
        rw [hf] at h
        dsimp only at h
        by_cases hs : (create_face_person gen u emb st).1.id ∈ seen
        · rw [if_pos hs] at h
          exact ih _ _ _ _ _ h hacc
        · rw [if_neg hs] at h
          cases hc : _copy_to_folder fail u (create_face_person gen u emb st).1.folderName fn
              (create_face_person gen u emb st).2.disk with
          | error e =>
            rw [hc] at h
            cases h
          | ok disk1 =>
            rw [hc] at h
            refine ih _ _ _ _ _ h ?_
            intro q hq
            rcases List.mem_append.mp hq with hq1 | hq2
            · exact hacc q hq1
            · obtain rfl : q = (create_face_person gen u emb st).1 := by simpa using hq2
              intro hn
              simp [create_face_person] at hn

/-- C8 (amended): with at least one detected face every attached group has
a non-null embedding, unconditionally; with zero faces the single attached
group has a null embedding provided no existing group of the owner already
uses the resolved slug as folder key with a non-null embedding (a newly
created scene group always stores NULL; reusing a colliding group keeps its
embedding). -/
theorem claim8_embedding_presence (sim : List ℚ → List ℚ → ℚ) (gen : Nat → String)
    (fail : DPath → Bool) (u fn : String) (faces : List (List ℚ))
    (label : Option String) (st : State)
    (hclean : ∀ p ∈ st.db.persons, p.userId = u →
        p.folderName = groq_describe_for_folder label → p.embedding = none) :
    ∀ r st2, process_uploaded_image sim gen fail u fn faces label st = .ok (r, st2) →
      ((¬faces = [] → ∀ p ∈ r.persons, ¬p.embedding = none) ∧
       (faces = [] → ∃ p, r.persons = [p] ∧ p.embedding = none)) := by
  intro r st2 h
  constructor
  · intro hne p hp
    have hnem : ¬faces.isEmpty = true := by
      cases faces
      · exact absurd rfl hne
      · simp
    rw [process_face_eq sim gen fail u fn faces label st hnem] at h
    cases hL : faceLoop sim gen fail u fn (gen st.fresh) faces []
        { st with db := { st.db with photos := st.db.photos ++
            [{ id := gen st.fresh, userId := u, filename := fn }] },
                  fresh := st.fresh + 1 } [] with
    | error e =>
      rw [hL] at h
      cases h
    | ok pair =>
      obtain ⟨st1, ps⟩ := pair
      rw [hL] at h
      dsimp only at h
      have h2 := Except.ok.inj h
      have hr : r = { filename := fn, facesDetected := faces.length, persons := ps,
                      photoId := gen st.fresh, method := "deepface" } :=
        (congrArg Prod.fst h2).symm
      refine faceLoop_embeddings sim gen fail u fn (gen st.fresh) faces [] _ [] st1 ps hL ?_ p ?_
      · intro q hq
        simp at hq
      · rw [hr] at hp
        exact hp
  · intro hnil
    subst hnil
    rw [process_scene_eq] at h
    dsimp only at h
    set pr := _find_or_create_scene_person gen u (groq_describe_for_folder label)
      { st with db := { st.db with photos := st.db.photos ++
          [{ id := gen st.fresh, userId := u, filename := fn }] },
                fresh := st.fresh + 1 } with hpr
    cases hc : _copy_to_folder fail u pr.1.folderName fn pr.2.disk with
    | error e =>
      rw [hc] at h
      cases h
    | ok disk1 =>
      rw [hc] at h
      dsimp only at h
      have h2 := Except.ok.inj h
      have hr : r = { filename := fn, facesDetected := 0, persons := [pr.1],
                      photoId := gen st.fresh, method := "groq_vision" } :=
        (congrArg Prod.fst h2).symm
      refine ⟨pr.1, by rw [hr], ?_⟩
      rw [hpr]
      exact scene_person_embedding gen u (groq_describe_for_folder label) _ hclean

/-- Counterexample for C8: a zero-face upload whose scene label collides
with the folder key of an existing face group reuses that group, so the
single attached group has a NON-null embedding. -/
theorem claim8_counterexample :
    (match process_uploaded_image simW genW noFail "u" "a.jpg" []
        (some "person_ab12cd34") stColl with
      | .ok (r, _) => r.persons.map Person.embedding
      | .error _ => []) = [some [1]] ∧
    pColl.folderName = groq_describe_for_folder (some "person_ab12cd34") ∧
    ¬(some [1] : Option (List ℚ)) = none :=
  ⟨by decide, by decide, by decide⟩

/-- Witness for C8 (amended): the scene-branch run on an empty database
attaches exactly one group whose embedding is NULL. -/
theorem claim8_witness : r3W.persons.map Person.embedding = [none] := by
  obtain ⟨p, hps, hemb⟩ := ((claim8_embedding_presence simW genW noFail "u" "a.jpg" []
      (some "Beach") stEmpty (by decide)) r3W st3W (by decide)).2 rfl
  rw [hps]
  simp [hemb]

theorem deletePhotoStep_noOrphans (personId : String) (db : DB) (ph : Photo)
    (h : noOrphans db) : noOrphans (deletePhotoStep personId db ph) := by
  intro q hq
  unfold deletePhotoStep at hq ⊢
  dsimp only at hq ⊢
  by_cases hemp : ((db.links.filter (fun l =>
      !(l.photoId == ph.id && l.personId == personId))).filter
        (fun l => l.photoId == ph.id)).isEmpty = true
  · rw [if_pos hemp] at hq
    have hq2 := List.mem_filter.mp hq
    have hqid : ¬q.id = ph.id := by simpa using hq2.2
    obtain ⟨l, hl, hlid⟩ := h q hq2.1
    refine ⟨l, List.mem_filter.mpr ⟨hl, ?_⟩, hlid⟩
    simp only [Bool.not_eq_true', Bool.and_eq_false_iff, beq_eq_false_iff_ne]
    left
    rw [hlid]
    exact hqid
  · rw [if_neg hemp] at hq
    by_cases hqid : q.id = ph.id
    · have hex : ∃ l2, l2 ∈ (db.links.filter (fun l =>
          !(l.photoId == ph.id && l.personId == personId))).filter
            (fun l => l.photoId == ph.id) := by
        cases hx : (db.links.filter (fun l =>
            !(l.photoId == ph.id && l.personId == personId))).filter
              (fun l => l.photoId == ph.id) with
        | nil => rw [hx] at hemp; simp at hemp
        | cons a t =>
          refine ⟨a, ?_⟩
          simp [hx]
      obtain ⟨l2, hl2⟩ := hex
      have hm := List.mem_filter.mp hl2
      refine ⟨l2, hm.1, ?_⟩
      rw [hqid]
      simpa using hm.2
    · obtain ⟨l, hl, hlid⟩ := h q hq
      refine ⟨l, List.mem_filter.mpr ⟨hl, ?_⟩, hlid⟩
      simp only [Bool.not_eq_true', Bool.and_eq_false_iff, beq_eq_false_iff_ne]
      left
      rw [hlid]
      exact hqid

theorem deletePhotoLoop_noOrphans (personId : String) :
    ∀ (rows : List Photo) (db : DB), noOrphans db →
      noOrphans (rows.foldl (deletePhotoStep personId) db) := by
  intro rows
  induction rows with
  | nil => intro db hdb; exact hdb
  | cons a l ih =>
    intro db hdb
    exact ih _ (deletePhotoStep_noOrphans personId db a hdb)

/-- C9: after deleting a photo from a folder, deleting a folder with
cascade, or moving a photo between folders, every remaining Image row keeps
at least one membership link (a photo whose last link went away is deleted
with it). -/
theorem claim9_no_orphans (st : State) (h : noOrphans st.db) :
    (∀ personId u fn, noOrphans (delete_photo_from_folder personId u fn st).2.db) ∧
    (∀ personId u, noOrphans (delete_folder personId u st).2.db) ∧
    (∀ u srcId destId fn keep r,
      move_photo_to_folder u srcId destId fn keep st = .ok r → noOrphans r.2.db) := by
  refine ⟨?_, ?_, ?_⟩
  · intro personId u fn
    unfold delete_photo_from_folder
    cases hfind : st.db.persons.find? (fun p => p.id == personId && p.userId == u) with
    | none => exact h
    | some pr =>
      dsimp only
      exact deletePhotoLoop_noOrphans personId _ _ h
  · intro personId u
    unfold delete_folder
    cases hfind : st.db.persons.find? (fun p => p.id == personId && p.userId == u) with
    | none => exact h
    | some pr =>
      dsimp only
      intro q hq
      have hq2 := List.mem_filter.mp hq
      obtain ⟨hqmem, hpred⟩ := hq2
      obtain ⟨l, hl, hlid⟩ := h q hqmem
      by_cases hlp : l.personId = personId
      · have hin : decide (q.id ∈ (st.db.links.filter (fun l2 =>
            l2.personId == personId)).map (fun l2 => l2.photoId)) = true := by
          simp only [decide_eq_true_eq, List.mem_map, List.mem_filter]
          exact ⟨l, ⟨hl, by simp [hlp]⟩, hlid⟩
        rw [Bool.not_eq_true', Bool.and_eq_false_iff] at hpred
        rcases hpred with h1 | h2
        · rw [hin] at h1
          cases h1
        · have hex : ∃ l2, l2 ∈ (st.db.links.filter (fun l2 =>
              !(l2.personId == personId))).filter (fun l2 => l2.photoId == q.id) := by
            cases hx : (st.db.links.filter (fun l2 =>
                !(l2.personId == personId))).filter (fun l2 => l2.photoId == q.id) with
            | nil => rw [hx] at h2; simp at h2
            | cons a t =>
              refine ⟨a, ?_⟩
              simp [hx]
          obtain ⟨l2, hl2⟩ := hex
          have hm := List.mem_filter.mp hl2
          exact ⟨l2, hm.1, by simpa using hm.2⟩
      · exact ⟨l, List.mem_filter.mpr ⟨hl, by simp [hlp]⟩, hlid⟩
  · intro u srcId destId fn keep r hm
    unfold move_photo_to_folder at hm
    cases hs : st.db.persons.find? (fun p => p.id == srcId && p.userId == u) with
    | none =>
      rw [hs] at hm
      dsimp only at hm
      obtain rfl := Except.ok.inj hm
      exact h
    | some s =>
      rw [hs] at hm
      dsimp only at hm
      cases hd : st.db.persons.find? (fun p => p.id == destId && p.userId == u) with
      | none =>
        rw [hd] at hm
        dsimp only at hm
        obtain rfl := Except.ok.inj hm
        exact h
      | some d =>
        rw [hd] at hm
        dsimp only at hm
        by_cases hmem : ((u, s.folderName, fn) : DPath) ∈ st.disk
        · rw [if_neg (not_not_intro hmem)] at hm
          by_cases hPeq : ((u, s.folderName, fn) : DPath) = (u, d.folderName, fn)
          · rw [if_pos hPeq] at hm
            cases hm
          · rw [if_neg hPeq] at hm
            cases hph : (st.db.photos.filter (fun q2 =>
                q2.userId == u && q2.filename == fn)).head? with
            | none =>
              rw [hph] at hm
              dsimp only at hm
              obtain rfl := Except.ok.inj hm
              exact h
            | some ph =>
              rw [hph] at hm
              dsimp only at hm
              obtain rfl := Except.ok.inj hm
              intro q hq
              obtain ⟨l, hl, hlid⟩ := h q hq
              have hids : ¬srcId = destId := by
                intro he
                rw [he] at hs
                rw [hs] at hd
                exact hPeq (by rw [Option.some.inj hd])
              have hl1 : ∀ l2, l2 ∈ st.db.links → l2 ∈ (if (st.db.links.filter (fun l3 =>
                  l3.photoId == ph.id && l3.personId == destId)).isEmpty = true then
                    st.db.links ++ [{ photoId := ph.id, personId := destId }]
                  else st.db.links) := by
                intro l2 hl2
                split
                · exact List.mem_append_left _ hl2
                · exact hl2
              have hdlink : ∃ l2, l2 ∈ (if (st.db.links.filter (fun l3 =>
                  l3.photoId == ph.id && l3.personId == destId)).isEmpty = true then
                    st.db.links ++ [{ photoId := ph.id, personId := destId }]
                  else st.db.links) ∧ l2.photoId = ph.id ∧ l2.personId = destId := by
                cases hdup : (st.db.links.filter (fun l3 =>
                    l3.photoId == ph.id && l3.personId == destId)).isEmpty
                · rw [if_neg Bool.false_ne_true]
                  cases hx : st.db.links.filter (fun l3 =>
                      l3.photoId == ph.id && l3.personId == destId) with
                  | nil => rw [hx] at hdup; simp at hdup
                  | cons a t =>
                    have ha : a ∈ st.db.links.filter (fun l3 =>
                        l3.photoId == ph.id && l3.personId == destId) := by
                      simp [hx]
                    have ham := List.mem_filter.mp ha
                    have hand : (a.photoId == ph.id) = true ∧ (a.personId == destId) = true := by
                      simpa using ham.2
                    exact ⟨a, ham.1, by simpa using hand.1, by simpa using hand.2⟩
                · rw [if_pos rfl]
                  exact ⟨{ photoId := ph.id, personId := destId },
                    List.mem_append_right _ (List.mem_cons_self _ _), rfl, rfl⟩
              show ∃ l2 ∈ (if keep = true then _ else _), l2.photoId = q.id
              by_cases hk : keep = true
              · rw [if_pos hk]
                exact ⟨l, hl1 l hl, hlid⟩
              · rw [if_neg hk]
                by_cases hcase : l.photoId = ph.id ∧ l.personId = srcId
                · obtain ⟨l2, hl2m, hl2p, hl2per⟩ := hdlink
                  refine ⟨l2, List.mem_filter.mpr ⟨hl2m, ?_⟩, ?_⟩
                  · simp only [Bool.not_eq_true', Bool.and_eq_false_iff, beq_eq_false_iff_ne]
                    right
                    rw [hl2per]
                    exact fun he => hids he.symm
                  · rw [hl2p, ← hcase.1, hlid]
                · refine ⟨l, List.mem_filter.mpr ⟨hl1 l hl, ?_⟩, hlid⟩
                  simp only [Bool.not_eq_true', Bool.and_eq_false_iff, beq_eq_false_iff_ne]
                  rcases not_and_or.mp hcase with h1 | h2
                  · left
                    exact h1
                  · right
                    exact h2
        · rw [if_pos hmem] at hm
          obtain rfl := Except.ok.inj hm
          exact h

/-- Witness for C9: on a state where every photo is linked, deleting group
pa leaves no orphan photo rows. -/
theorem claim9_witness : noOrphans (delete_folder "pa" "u" st5W).2.db :=
  (claim9_no_orphans st5W (by unfold noOrphans; decide)).2.1 "pa" "u"

/-- C10: emailing a group's photos attaches only the first ten listed
files, skipping (and not counting) those whose read fails; the reported
photos_sent equals the number actually attached and is therefore at most
ten, even when the listing holds more files. -/
theorem claim10_email_caps (attachFail : String → Bool) (smtpOk : Bool)
    (u personId recipient : String) (st : State) (person : Person)
    (hfind : st.db.persons.find? (fun p => p.id == personId) = some person)
    (hne : ¬(list_images st.disk u person.folderName).isEmpty = true) :
    (send_photos_by_email attachFail smtpOk u personId recipient st).1 =
      (if smtpOk then
        EmailResult.sent (((list_images st.disk u person.folderName).take 10).countP
          (fun f => !attachFail f))
      else EmailResult.failed "smtp") ∧
    ((list_images st.disk u person.folderName).take 10).countP
      (fun f => !attachFail f) ≤ 10 := by
  constructor
  · unfold send_photos_by_email
    rw [hfind]
    dsimp only
    rw [if_neg hne]
    by_cases hok : smtpOk = true
    · rw [if_pos hok, if_pos hok]
    · rw [if_neg hok, if_neg hok]
  · refine le_trans (List.countP_le_length _) ?_
    refine le_trans (List.length_take_le _ _) ?_
    exact le_refl 10

/-- Witness for C10: a group with twelve photos and one failing attachment
reports nine photos sent, within the cap of ten. -/
theorem claim10_witness :
    (send_photos_by_email attachFailW true "u" "pe" "r@x" st10W).1 =
      EmailResult.sent 9 ∧
    ((list_images st10W.disk "u" pEW.folderName).take 10).countP
      (fun f => !attachFailW f) ≤ 10 := by
  have h := claim10_email_caps attachFailW true "u" "pe" "r@x" st10W pEW
    (by decide) (by decide)
  refine ⟨?_, h.2⟩
  rw [h.1]
  decide
